import Mathlib

/-!
Shallow embedding of the espiresso repository sources:
  * `src/trunk/gaggia/ranger.cpp` — background ultrasonic ranging driver
    (class `Ranger`): worker loop with outlier check, single retry and
    exponential low-pass filter, plus the raw `measureRange` procedure.
  * `src/gaggia/pid.h` — PID controller (`PIDControl`); only the
    declaration is in the sources, so `update` is modelled from the spec.

`double` values are modelled as exact rationals (ℚ): every claim under
study is about the formulas the code computes, not about rounding.
The C++ `unsigned` member `m_count` is modelled as a natural number
reduced modulo 2^32 (the width of `unsigned` on the 32-bit Raspberry Pi
target this firmware runs on), so overflow behaviour is faithful.
-/

namespace Espiresso

/-- Wrap-around modulus of the C++ `unsigned` type on the target
(32-bit): `m_count++` computes modulo `uintMod`. -/
def uintMod : ℕ := 2 ^ 32

/-- State carried across iterations of `Ranger::worker`
(ranger.cpp:82-119) together with the members it touches.
`m_range` / `m_count` are the members written under the mutex;
`range`, `oldRange` and `firstTime` are the worker locals declared
before the loop (ranger.cpp:84-86).  Note that the outer local `range`
is never reassigned inside the loop: line 92 declares a NEW variable
`double range = measureRange();` that shadows it, so the outer `range`
keeps its initial value. -/
structure RangerState where
  m_range : ℚ
  m_count : ℕ
  range : ℚ
  oldRange : ℚ
  firstTime : Bool
  deriving Repr, DecidableEq

/-- State at worker start: members initialised by the constructor
(ranger.cpp:8-14: `m_range(0.0), m_count(0)`) and the worker locals at
their declarations (ranger.cpp:84-86). -/
def initialState : RangerState :=
  { m_range := 0, m_count := 0, range := 0, oldRange := 0, firstTime := true }

/-- The outlier test the code performs on the fresh reading `r`
(ranger.cpp:95-97).  `oldRange` has just been assigned from the outer
local `range` (ranger.cpp:89), which the shadowing declaration at line
92 leaves at its initial value, i.e. `s.range`. -/
def codeOutlier (s : RangerState) (r : ℚ) : Bool :=
  (!s.firstTime && decide (|r - s.range| > 1 / 100)) || decide (r < 1 / 1000)

/-- The outlier classification as the SPEC states it (spec §4.1 step 2):
compare the fresh reading `r` against `prevRaw`, the raw reading of the
immediately preceding iteration, with the same 0.01 m jump threshold and
0.001 m near-zero floor. -/
def specOutlier (firstIteration : Bool) (prevRaw r : ℚ) : Bool :=
  (!firstIteration && decide (|r - prevRaw| > 1 / 100)) || decide (r < 1 / 1000)

/-- The raw value an iteration commits to the filter: the first
measurement `r1`, or the retry measurement `r2` when `r1` was classified
as an outlier (ranger.cpp:99-101).  The retry value is used
unconditionally — it is never re-checked. -/
def committedValue (s : RangerState) (r1 r2 : ℚ) : ℚ :=
  if codeOutlier s r1 then r2 else r1

/-- Number of `measureRange()` calls the iteration performs: one, plus
one retry when the first reading is classified as an outlier
(ranger.cpp:92 and 99-101). -/
def measurementsTaken (s : RangerState) (r1 : ℚ) : ℕ :=
  if codeOutlier s r1 then 2 else 1

/-- The locked filter-update block (ranger.cpp:103-117) applied to the
committed reading `r`: on the first iteration `m_range` is first set to
`r` (ranger.cpp:108-111), then the single-pole low-pass step
`m_range = m_range + k * (r - m_range)` with `k = 0.5` runs
(ranger.cpp:114-115). -/
def commitReading (firstTime : Bool) (mRange r : ℚ) : ℚ :=
  let m := if firstTime then r else mRange
  m + (1 / 2) * (r - m)

/-- One iteration of the worker loop (ranger.cpp:88-118), with the two
possible `measureRange()` results `r1` (first attempt) and `r2` (retry,
consumed only on an outlier) supplied as inputs. -/
def workerStep (s : RangerState) (r1 r2 : ℚ) : RangerState :=
  { m_range := commitReading s.firstTime s.m_range (committedValue s r1 r2)
    m_count := (s.m_count + 1) % uintMod
    range := s.range
    oldRange := s.range
    firstTime := false }

/-- Run the worker loop over a list of iteration inputs, each a pair
(first measurement, retry measurement). -/
def runWorker (s : RangerState) (ms : List (ℚ × ℚ)) : RangerState :=
  List.foldl (fun t p => workerStep t p.1 p.2) s ms

/-- `Ranger::getRange` (ranger.cpp:43-48): the current filtered value. -/
def getRange (s : RangerState) : ℚ := s.m_range

/-- `Ranger::getCount` (ranger.cpp:52-57): the measurement counter. -/
def getCount (s : RangerState) : ℕ := s.m_count

/-- `Ranger::ready` (ranger.cpp:73-78): `m_count > 0`. -/
def ready (s : RangerState) : Bool := decide (s.m_count > 0)

/-! ### `Ranger::measureRange` (ranger.cpp:123-176)

The hardware interaction is abstracted by an `EchoObservation`: whether
the two `m_echo.poll(timeout)` calls saw an edge within the 60 ms
timeout, and at what clock times the edges were seen. -/

/-- Echo-line behaviour for one trigger: results of the two
`poll(timeout)` waits and the clock readings taken on success. -/
structure EchoObservation where
  riseSeen : Bool
  riseTime : ℚ
  fallSeen : Bool
  fallTime : ℚ
  deriving Repr, DecidableEq

/-- Echo poll timeout in milliseconds (ranger.cpp:130). -/
def echoTimeoutMs : ℕ := 60

/-- Speed of sound constant, 340.27 m/s (ranger.cpp:168). -/
def speedOfSound : ℚ := 34027 / 100

/-- Distance returned by `measureRange` (ranger.cpp:148-175): zero
unless both edges were seen, otherwise the pulse width converted to
meters and halved for the round trip. -/
def measureRange (e : EchoObservation) : ℚ :=
  let elapsed : ℚ := if e.riseSeen && e.fallSeen then e.fallTime - e.riseTime else 0
  let response : Bool := e.riseSeen && e.fallSeen
  let distance := elapsed * speedOfSound / 2
  if response then distance else 0

/-- Minimum time in seconds between successive triggers
(ranger.cpp:127). -/
def minimumInterval : ℚ := 1 / 5

/-- Width in microseconds of the high pulse sent on the trigger line
(ranger.cpp:147: `m_trigger.usPulse( true, 10 )`). -/
def triggerPulseWidthUs : ℕ := 10

/-- Sleep the retrigger-interval guard performs, in seconds
(ranger.cpp:136-141): `delayms(1000 * (minimumInterval - interval))`
when `interval < minimumInterval`, no sleep otherwise.  `timeLastRun` is
`m_timeLastRun`, `now` is the `getClock()` reading at entry. -/
def retriggerSleep (timeLastRun now : ℚ) : ℚ :=
  if now - timeLastRun < minimumInterval then minimumInterval - (now - timeLastRun) else 0

/-- Clock time at which the trigger pulse is emitted (and at which
`m_timeLastRun` is re-recorded, ranger.cpp:144), under the idealised
timing model: `delayms` sleeps exactly the requested time and
`getClock` reads an exact monotone clock, so after the guard the clock
shows `now + retriggerSleep`. -/
def triggerEmitTime (timeLastRun now : ℚ) : ℚ :=
  now + retriggerSleep timeLastRun now

/-! ### `Ranger::initialise` (ranger.cpp:61-69)

`initialise` runs `for (int i=0; (i<10) && !ready(); i++) delayms(50);`
and then `return ready();`.  The worker thread changes `ready()`
concurrently, so the successive results of the `ready()` calls are
abstracted as a stream `obs : ℕ → Bool`, indexed by call order: the
guard at loop counter `i` performs the `i`-th call, and the final
`return ready()` performs one further call. -/

/-- Poll interval of `initialise` in milliseconds (ranger.cpp:65). -/
def initPollDelayMs : ℕ := 50

/-- Loop counter at which the `for` loop of `initialise` exits: the
first `i` with `i < 10` false or `obs i = true`.  The counter also
equals the number of `delayms(50)` sleeps performed.  `fuel = 11`
suffices since the counter starts at 0 and can reach at most 10. -/
def initExitIndex (obs : ℕ → Bool) : ℕ → ℕ → ℕ
  | 0, i => i
  | fuel + 1, i => if i < 10 && !(obs i) then initExitIndex obs fuel (i + 1) else i

/-- Number of `delayms(50)` sleeps `initialise` performs. -/
def initSleeps (obs : ℕ → Bool) : ℕ := initExitIndex obs 11 0

/-- Index (in call order) of the `ready()` call whose result the final
`return ready()` yields: one past the exiting guard call when the loop
exited on `ready()`, or call 10 when the loop ran out (the guard at
`i = 10` short-circuits and does not call `ready()`). -/
def initReturnIndex (obs : ℕ → Bool) : ℕ :=
  let e := initExitIndex obs 11 0
  if e < 10 then e + 1 else e

/-- Value returned by `Ranger::initialise` (ranger.cpp:68). -/
def initialise (obs : ℕ → Bool) : Bool := obs (initReturnIndex obs)

/-! ### `PIDControl` (pid.h)

`pid.h` only declares the class; the body of `update` is not among the
sources, so it is modelled from the spec. -/

/-- The `PIDControl` members (pid.h:20-28). -/
structure PIDControl where
  m_dState : ℚ
  m_iState : ℚ
  m_iMax : ℚ
  m_iMin : ℚ
  m_iGain : ℚ
  m_pGain : ℚ
  m_dGain : ℚ
  deriving Repr, DecidableEq

/-- Modelled from the spec: the body of `PIDControl::update` is not
under the sources (pid.h:18 declares it only).  Spec §4.2: proportional
term `pGain * error`; the integral term accumulates `error` scaled by
`iGain` into `iState`, then clamps `iState` to `[iMin, iMax]`;
derivative term `-dGain * (position - dState)`; `dState` is updated to
`position` for the next call; the output is the sum of the three
terms.  Returns the output together with the updated state. -/
def PIDControl.update (c : PIDControl) (error position : ℚ) : ℚ × PIDControl :=
  let accum := c.m_iState + c.m_iGain * error
  let iState :=
    if accum > c.m_iMax then c.m_iMax
    else if accum < c.m_iMin then c.m_iMin
    else accum
  let pTerm := c.m_pGain * error
  let dTerm := -c.m_dGain * (position - c.m_dState)
  (pTerm + iState + dTerm, { c with m_iState := iState, m_dState := position })

/-! ## Helper lemmas -/

/-- One worker iteration advances the counter by one, modulo the
`unsigned` wrap. -/
theorem workerStep_count (s : RangerState) (r1 r2 : ℚ) :
    (workerStep s r1 r2).m_count = (s.m_count + 1) % uintMod := rfl

/-- Counter value after running the worker over a list of iteration
inputs: the number of iterations, modulo the `unsigned` wrap. -/
theorem runWorker_count (ms : List (ℚ × ℚ)) (s : RangerState)
    (h : s.m_count < uintMod) :
    (runWorker s ms).m_count = (s.m_count + ms.length) % uintMod := by
  induction ms generalizing s with
  | nil => simpa [runWorker] using (Nat.mod_eq_of_lt h).symm
  | cons p t ih =>
    have hstep : (workerStep s p.1 p.2).m_count = (s.m_count + 1) % uintMod := rfl
    have hlt : (workerStep s p.1 p.2).m_count < uintMod := by
      rw [hstep]
      exact Nat.mod_lt _ (by norm_num [uintMod])
    have : runWorker s (p :: t) = runWorker (workerStep s p.1 p.2) t := rfl
    rw [this, ih _ hlt, hstep, Nat.mod_add_mod]
    congr 1
    simp [List.length_cons]
    omega

/-- The `initialise` loop counter never leaves `[0, 10]`. -/
theorem initExitIndex_le (obs : ℕ → Bool) (fuel i : ℕ) (h : i ≤ 10) :
    initExitIndex obs fuel i ≤ 10 := by
  induction fuel generalizing i with
  | zero => simpa [initExitIndex] using h
  | succ n ih =>
    rw [initExitIndex]
    split
    · next hc =>
      simp only [Bool.and_eq_true, decide_eq_true_eq, Bool.not_eq_true'] at hc
      exact ih (i + 1) (by omega)
    · exact h

/-- If `obs k` is the first `true` observation at or after `i` and
`k < 10`, the `initialise` loop exits exactly at counter `k`. -/
theorem initExitIndex_first_true (obs : ℕ → Bool) (fuel i k : ℕ)
    (hik : i ≤ k) (hk : k < 10) (ht : obs k = true)
    (hf : ∀ j, i ≤ j → j < k → obs j = false) (hfuel : k - i < fuel) :
    initExitIndex obs fuel i = k := by
  induction fuel generalizing i with
  | zero => omega
  | succ n ih =>
    rw [initExitIndex]
    rcases eq_or_lt_of_le hik with rfl | hlt
    · simp [ht]
    · have hoi : obs i = false := hf i le_rfl hlt
      have hi10 : i < 10 := by omega
      simp only [hoi, hi10, decide_true_eq_true, Bool.not_false, Bool.and_true,
        decide_eq_true_eq, if_pos hi10]
      exact ih (i + 1) (by omega) (fun j hj1 hj2 => hf j (by omega) hj2) (by omega)

/-! ## Claims -/

/-- Claim C1 (code bug): the worker is supposed to compare each raw
reading against the raw reading of the immediately preceding iteration
(spec §4.1 step 2), but line 92 of ranger.cpp declares a new `range`
variable that shadows the outer local, so `oldRange = range`
(ranger.cpp:89) always reads the stale initial value 0.0 and the jump
test degenerates to `|r - 0| > 0.01`.  Witnessed at the concrete run
whose first committed raw reading is 0.5 m and whose second raw reading
is again 0.5 m: the spec classifies the second reading as NOT an
outlier (zero jump, above the near-zero floor), but the code classifies
it as an outlier.  The third conjunct exhibits the stale outer local. -/
theorem c1_outlier_check_uses_stale_zero :
    codeOutlier (workerStep initialState (1 / 2) (1 / 2)) (1 / 2) = true ∧
    specOutlier false (1 / 2) (1 / 2) = false ∧
    (workerStep initialState (1 / 2) (1 / 2)).range = 0 := by
  have h : |(1 : ℚ) / 2| = 1 / 2 := abs_of_nonneg (by norm_num)
  refine ⟨?_, ?_, ?_⟩
  · norm_num [codeOutlier, workerStep, initialState, h]
  · norm_num [specOutlier]
  · norm_num [workerStep, initialState]

/-- Claim C2: on an iteration whose first reading is classified as an
outlier, exactly one retry is taken (two measurements total, never
more) and the retry value is committed to the filter unconditionally —
`r2` is arbitrary, so in particular a retry value that itself satisfies
the outlier conditions is still committed; a non-outlier iteration
takes exactly one measurement and commits it. -/
theorem c2_single_retry_committed_unconditionally (s : RangerState) (r1 r2 : ℚ) :
    measurementsTaken s r1 ≤ 2 ∧
    (codeOutlier s r1 = true →
      measurementsTaken s r1 = 2 ∧ committedValue s r1 r2 = r2) ∧
    (codeOutlier s r1 = false →
      measurementsTaken s r1 = 1 ∧ committedValue s r1 r2 = r1) ∧
    getRange (workerStep s r1 r2)
      = commitReading s.firstTime s.m_range (committedValue s r1 r2) := by
  refine ⟨?_, fun h => ?_, fun h => ?_, rfl⟩
  · by_cases h : codeOutlier s r1 <;> simp [measurementsTaken, h]
  · simp [measurementsTaken, committedValue, h]
  · simp [measurementsTaken, committedValue, h]

/-- Witness for C2 at a concrete input: from the initial state a first
reading of 0 m is an outlier (near-zero floor), the iteration takes two
measurements, and the retry value 0 — itself below the near-zero floor
— is committed anyway. -/
theorem c2_single_retry_committed_unconditionally_witness :
    codeOutlier initialState 0 = true ∧
    measurementsTaken initialState 0 = 2 ∧
    committedValue initialState 0 0 = 0 := by
  have ho : codeOutlier initialState 0 = true := by
    norm_num [codeOutlier, initialState]
  have h := c2_single_retry_committed_unconditionally initialState 0 0
  exact ⟨ho, (h.2.1 ho).1, (h.2.1 ho).2⟩

/-- Claim C3: the published filtered value after a first-iteration
commit equals the committed raw reading exactly (initialisation at
ranger.cpp:108-111 followed by the filter step is the identity); on
every later iteration the new published value is
`prev + 0.5 * (r - prev)`, which lies between `prev` and `r`, strictly
so when they differ. -/
theorem c3_filter_first_and_step (s : RangerState) (r1 r2 prev r : ℚ) :
    (s.firstTime = true → getRange (workerStep s r1 r2) = committedValue s r1 r2) ∧
    (s.firstTime = false →
      getRange (workerStep s r1 r2)
        = s.m_range + (1 / 2) * (committedValue s r1 r2 - s.m_range)) ∧
    commitReading false prev r = prev + (1 / 2) * (r - prev) ∧
    min prev r ≤ commitReading false prev r ∧
    commitReading false prev r ≤ max prev r ∧
    (prev ≠ r →
      min prev r < commitReading false prev r ∧
      commitReading false prev r < max prev r) := by
  have hc : commitReading false prev r = prev + (1 / 2) * (r - prev) := by
    simp [commitReading]
  refine ⟨fun h => ?_, fun h => ?_, hc, ?_, ?_, fun hne => ⟨?_, ?_⟩⟩
  · simp [getRange, workerStep, commitReading, h]
  · simp [getRange, workerStep, commitReading, h]
  · rcases le_total prev r with hle | hle
    · rw [min_eq_left hle, hc]
      linarith
    · rw [min_eq_right hle, hc]
      linarith
  · rcases le_total prev r with hle | hle
    · rw [max_eq_right hle, hc]
      linarith
    · rw [max_eq_left hle, hc]
      linarith
  · rcases lt_or_gt_of_ne hne with hlt | hlt
    · rw [min_eq_left hlt.le, hc]
      linarith
    · rw [min_eq_right hlt.le, hc]
      linarith
  · rcases lt_or_gt_of_ne hne with hlt | hlt
    · rw [max_eq_right hlt.le, hc]
      linarith
    · rw [max_eq_left hlt.le, hc]
      linarith

/-- Witness for C3 at concrete inputs: the first committed reading 1 m
is published exactly; a later step from previous value 1 with committed
reading 2 publishes 3/2, strictly between 1 and 2. -/
theorem c3_filter_first_and_step_witness :
    getRange (workerStep initialState 1 0) = 1 ∧
    commitReading false 1 2 = 3 / 2 ∧
    min (1 : ℚ) 2 < commitReading false 1 2 ∧
    commitReading false (1 : ℚ) 2 < max (1 : ℚ) 2 := by
  have h := c3_filter_first_and_step initialState 1 0 1 2
  have hc : committedValue initialState 1 0 = 1 := by
    have habs : |(1 : ℚ)| = 1 := abs_of_nonneg (by norm_num)
    norm_num [committedValue, codeOutlier, initialState, habs]
  have hstrict := h.2.2.2.2.2 (by norm_num)
  refine ⟨?_, ?_, hstrict.1, hstrict.2⟩
  · rw [h.1 rfl, hc]
  · rw [h.2.2.1]
    norm_num

/-- Claim C4: `update(error, position)` returns the sum of the
proportional term `pGain * error`, the integral term obtained by
accumulating `iGain * error` into `iState` and clamping `iState` to
`[iMin, iMax]`, and the derivative term `-dGain * (position - dState)`;
`dState` becomes `position`, and (whenever the caller respected the
documented obligation `iMin ≤ iMax`) the updated `iState` lies in
`[iMin, iMax]`. -/
theorem c4_pid_update_spec (c : PIDControl) (error position : ℚ)
    (h : c.m_iMin ≤ c.m_iMax) :
    ((c.update error position).2).m_iState
      = min c.m_iMax (max c.m_iMin (c.m_iState + c.m_iGain * error)) ∧
    ((c.update error position).2).m_dState = position ∧
    (c.update error position).1
      = c.m_pGain * error + ((c.update error position).2).m_iState
          + (-c.m_dGain * (position - c.m_dState)) ∧
    c.m_iMin ≤ ((c.update error position).2).m_iState ∧
    ((c.update error position).2).m_iState ≤ c.m_iMax := by
  have hstate :
      ((c.update error position).2).m_iState
        = if c.m_iState + c.m_iGain * error > c.m_iMax then c.m_iMax
          else if c.m_iState + c.m_iGain * error < c.m_iMin then c.m_iMin
          else c.m_iState + c.m_iGain * error := rfl
  have hd : ((c.update error position).2).m_dState = position := rfl
  have hout : (c.update error position).1
      = c.m_pGain * error + ((c.update error position).2).m_iState
          + (-c.m_dGain * (position - c.m_dState)) := rfl
  have hmm : ((c.update error position).2).m_iState
      = min c.m_iMax (max c.m_iMin (c.m_iState + c.m_iGain * error)) := by
    rw [hstate]
    by_cases hhi : c.m_iState + c.m_iGain * error > c.m_iMax
    · rw [if_pos hhi, max_eq_right (h.trans hhi.le), min_eq_left hhi.le]
    · rw [if_neg hhi]
      by_cases hlo : c.m_iState + c.m_iGain * error < c.m_iMin
      · rw [if_pos hlo, max_eq_left hlo.le, min_eq_right h]
      · rw [if_neg hlo, max_eq_right (not_lt.mp hlo), min_eq_right (not_lt.mp hhi)]
  refine ⟨hmm, hd, hout, ?_, ?_⟩
  · rw [hmm]
    exact le_min h (le_max_left _ _)
  · rw [hmm]
    exact min_le_left _ _

/-- Witness for C4 at the concrete input of spec §8: gains
`iMin = -10, iMax = 10, iGain = 5, pGain = 0, dGain = 1`, zeroed state,
`update(100, 3)`: the accumulated integral `500` saturates at `10`, the
output is `0 + 10 + (-(3 - 0)) = 7`, and `dState` becomes `3`. -/
theorem c4_pid_update_spec_witness :
    ((PIDControl.update ⟨0, 0, 10, -10, 5, 0, 1⟩ 100 3).2).m_iState = 10 ∧
    ((PIDControl.update ⟨0, 0, 10, -10, 5, 0, 1⟩ 100 3).2).m_dState = 3 ∧
    (PIDControl.update ⟨0, 0, 10, -10, 5, 0, 1⟩ 100 3).1 = 7 ∧
    (-10 : ℚ) ≤ ((PIDControl.update ⟨0, 0, 10, -10, 5, 0, 1⟩ 100 3).2).m_iState := by
  have h := c4_pid_update_spec ⟨0, 0, 10, -10, 5, 0, 1⟩ 100 3 (by norm_num)
  refine ⟨?_, h.2.1, ?_, ?_⟩
  · rw [h.1]
    norm_num
  · rw [h.2.2.1, h.1]
    norm_num
  · exact h.2.2.2.1

/-- Claim C5: `measureRange` yields 0.0 whenever either edge wait timed
out, and otherwise `(fall - rise) * 340.27 / 2`; the per-edge poll
timeout constant is 60 ms. -/
theorem c5_measureRange_result (e : EchoObservation) :
    (e.riseSeen = false ∨ e.fallSeen = false → measureRange e = 0) ∧
    (e.riseSeen = true → e.fallSeen = true →
      measureRange e = (e.fallTime - e.riseTime) * speedOfSound / 2) ∧
    speedOfSound = 34027 / 100 ∧
    echoTimeoutMs = 60 := by
  refine ⟨fun h => ?_, fun h1 h2 => ?_, rfl, rfl⟩
  · rcases h with h | h <;> simp [measureRange, h]
  · simp [measureRange, h1, h2]

/-- Witness for C5 at concrete inputs: a missed falling edge yields 0;
a rise at t = 1 s and fall at t = 1 + 1/1000 s yields
`(1/1000) * 340.27 / 2` m. -/
theorem c5_measureRange_result_witness :
    measureRange ⟨true, 1, false, 0⟩ = 0 ∧
    measureRange ⟨true, 1, true, 1 + 1 / 1000⟩ = 34027 / 200000 := by
  constructor
  · exact (c5_measureRange_result ⟨true, 1, false, 0⟩).1 (Or.inr rfl)
  · rw [(c5_measureRange_result ⟨true, 1, true, 1 + 1 / 1000⟩).2.1 rfl rfl]
    norm_num [speedOfSound]

/-- Claim C6: under the idealised timing model (`delayms` sleeps
exactly the requested time, `getClock` is exact and monotone), the
retrigger guard of `measureRange` sleeps out the remainder of the
0.2 s minimum interval whenever it is re-entered sooner, and emits the
trigger pulse no earlier than 0.2 s after the previous trigger time.
Since `m_timeLastRun` is re-recorded at the emit time (ranger.cpp:144),
the first conjunct applied to consecutive calls shows that two trigger
pulses are never emitted less than 0.2 s apart. -/
theorem c6_retrigger_interval (timeLastRun now : ℚ) :
    minimumInterval ≤ triggerEmitTime timeLastRun now - timeLastRun ∧
    (now - timeLastRun < minimumInterval →
      retriggerSleep timeLastRun now = minimumInterval - (now - timeLastRun) ∧
      triggerEmitTime timeLastRun now = timeLastRun + minimumInterval) ∧
    (minimumInterval ≤ now - timeLastRun →
      retriggerSleep timeLastRun now = 0 ∧
      triggerEmitTime timeLastRun now = now) ∧
    minimumInterval = 1 / 5 ∧
    triggerPulseWidthUs = 10 := by
  refine ⟨?_, fun h => ?_, fun h => ?_, rfl, rfl⟩
  · by_cases h : now - timeLastRun < minimumInterval
    · simp only [triggerEmitTime, retriggerSleep, if_pos h]
      linarith
    · simp only [triggerEmitTime, retriggerSleep, if_neg h]
      push_neg at h
      linarith
  · simp only [triggerEmitTime, retriggerSleep, if_pos h]
    constructor
    · trivial
    · ring
  · have hn : ¬(now - timeLastRun < minimumInterval) := not_lt.mpr h
    simp only [triggerEmitTime, retriggerSleep, if_neg hn]
    constructor
    · trivial
    · ring

/-- Witness for C6 at concrete inputs: re-entry 0.05 s after the last
trigger sleeps 0.15 s and fires at `lastRun + 0.2`; re-entry 0.3 s
after does not sleep. -/
theorem c6_retrigger_interval_witness :
    retriggerSleep 0 (1 / 20) = 3 / 20 ∧
    triggerEmitTime 0 (1 / 20) = 1 / 5 ∧
    retriggerSleep 0 (3 / 10) = 0 ∧
    minimumInterval ≤ triggerEmitTime 0 (1 / 20) - 0 := by
  have h1 := c6_retrigger_interval 0 (1 / 20)
  have h2 := c6_retrigger_interval 0 (3 / 10)
  have hlt : (1 : ℚ) / 20 - 0 < minimumInterval := by norm_num [minimumInterval]
  have hge : minimumInterval ≤ (3 : ℚ) / 10 - 0 := by norm_num [minimumInterval]
  refine ⟨?_, ?_, (h2.2.2.1 hge).1, h1.1⟩
  · rw [(h1.2.1 hlt).1]
    norm_num [minimumInterval]
  · rw [(h1.2.1 hlt).2]
    norm_num [minimumInterval]

/-- Counterexample to claim C7 as stated: `m_count` is a C++
`unsigned` (32 bits on the target), so after 2^32 completed iterations
`m_count++` wraps and the counter DECREASES from 2^32 - 1 to 0.  The
two runs below are the same run observed one iteration apart. -/
theorem c7_count_wraps_counterexample :
    getCount (runWorker initialState
        (List.replicate (uintMod - 1) ((1 : ℚ), (1 : ℚ)) ++ [((1 : ℚ), (1 : ℚ))]))
      < getCount (runWorker initialState
          (List.replicate (uintMod - 1) ((1 : ℚ), (1 : ℚ)))) := by
  have h0 : initialState.m_count < uintMod := by norm_num [initialState, uintMod]
  have h1 := runWorker_count
    (List.replicate (uintMod - 1) ((1 : ℚ), (1 : ℚ)) ++ [((1 : ℚ), (1 : ℚ))])
    initialState h0
  have h2 := runWorker_count
    (List.replicate (uintMod - 1) ((1 : ℚ), (1 : ℚ))) initialState h0
  have hlen1 :
      (List.replicate (uintMod - 1) ((1 : ℚ), (1 : ℚ)) ++ [((1 : ℚ), (1 : ℚ))]).length
        = uintMod - 1 + 1 := by
    rw [List.length_append, List.length_replicate]
    rfl
  have hlen2 :
      (List.replicate (uintMod - 1) ((1 : ℚ), (1 : ℚ))).length = uintMod - 1 := by
    rw [List.length_replicate]
  rw [hlen1] at h1
  rw [hlen2] at h2
  rw [getCount, getCount, h1, h2]
  norm_num [initialState, uintMod]

/-- Claim C7 amended: `m_count` starts at 0 and each completed worker
iteration advances it by exactly 1 modulo 2^32 (the wrap of the
`unsigned` member); in particular it increases by exactly 1 — and hence
never decreases — on every iteration that does not overflow the
32-bit counter.  (Within ranger.cpp only `worker` writes `m_count`;
`getCount`, `ready`, `initialise` and `getRange` are observations of
the state and return no new state in this embedding.) -/
theorem c7_count_increments_mod (s : RangerState) (r1 r2 : ℚ) :
    getCount initialState = 0 ∧
    getCount (workerStep s r1 r2) = (getCount s + 1) % uintMod ∧
    (getCount s + 1 < uintMod →
      getCount (workerStep s r1 r2) = getCount s + 1) := by
  refine ⟨rfl, rfl, fun h => ?_⟩
  have : (s.m_count + 1) % uintMod = s.m_count + 1 := Nat.mod_eq_of_lt h
  simpa [getCount, workerStep] using this

/-- Witness for C7 at a concrete input: the first iteration advances
the counter from 0 to 1. -/
theorem c7_count_increments_mod_witness :
    getCount (workerStep initialState 1 1) = getCount initialState + 1 := by
  have h := c7_count_increments_mod initialState 1 1
  rw [h.1]
  exact (h.2.2 (by norm_num [getCount, initialState, uintMod])).trans
    (by rw [h.1])

/-- Counterexample to claim C8 as stated ("true forever after"):
`ready()` is true after the first completed iteration, but after 2^32
completed iterations of the very same run the wrapped counter is 0
again and `ready()` is false. -/
theorem c8_ready_wraps_counterexample :
    ready (runWorker initialState (List.replicate 1 ((1 : ℚ), (1 : ℚ)))) = true ∧
    ready (runWorker initialState (List.replicate uintMod ((1 : ℚ), (1 : ℚ)))) = false := by
  have h0 : initialState.m_count < uintMod := by norm_num [initialState, uintMod]
  have h1 := runWorker_count (List.replicate 1 ((1 : ℚ), (1 : ℚ))) initialState h0
  have h2 := runWorker_count (List.replicate uintMod ((1 : ℚ), (1 : ℚ))) initialState h0
  simp only [List.length_replicate] at h1 h2
  constructor
  · simp only [ready, h1]
    norm_num [initialState, uintMod]
  · simp only [ready, h2]
    norm_num [initialState, uintMod]

/-- Claim C8 amended: `ready()` returns true iff `m_count > 0`; it is
false at start, and after `n` completed worker iterations with
`0 < n < 2^32` it is true — i.e. it is true from the first completed
iteration onward for as long as the 32-bit counter has not wrapped back
to 0. -/
theorem c8_ready_iff_count_pos (s : RangerState) (ms : List (ℚ × ℚ)) :
    (ready s = true ↔ 0 < getCount s) ∧
    ready initialState = false ∧
    (ms ≠ [] → ms.length < uintMod → ready (runWorker initialState ms) = true) := by
  refine ⟨by simp [ready, getCount], rfl, fun hne hlen => ?_⟩
  have h0 : initialState.m_count < uintMod := by norm_num [initialState, uintMod]
  have h := runWorker_count ms initialState h0
  have hpos : 0 < ms.length := List.length_pos.mpr hne
  simp only [ready, h]
  have : (initialState.m_count + ms.length) % uintMod = ms.length := by
    rw [show initialState.m_count = 0 from rfl, Nat.zero_add]
    exact Nat.mod_eq_of_lt hlen
  rw [this]
  simpa using hpos

/-- Witness for C8 at a concrete input: one completed iteration makes
`ready()` true. -/
theorem c8_ready_iff_count_pos_witness :
    ready (runWorker initialState [((1 : ℚ), (1 : ℚ))]) = true := by
  exact (c8_ready_iff_count_pos initialState [((1 : ℚ), (1 : ℚ))]).2.2
    (by simp) (by norm_num [uintMod])

/-- Claim C9: `initialise` sleeps 50 ms at most 10 times (at most
0.5 s in total), the loop stops at the first `ready()` call that
returns true (when one occurs among the first 10 calls), the returned
value is the result of one final `ready()` call after loop exit, and —
since `ready()` is monotone over any window in which the counter does
not wrap — the call returns true iff a measurement had arrived by the
time of that final call.  `initialise` only calls `ready()` and
`delayms`; in this embedding it is a pure function of the stream of
`ready()` observations, so it modifies no sensor state. -/
theorem c9_initialise_polls (obs : ℕ → Bool) :
    initSleeps obs ≤ 10 ∧
    initSleeps obs * initPollDelayMs ≤ 500 ∧
    initialise obs = obs (initReturnIndex obs) ∧
    (∀ k, k < 10 → obs k = true → (∀ j, j < k → obs j = false) →
      initSleeps obs = k ∧ initReturnIndex obs = k + 1) ∧
    ((∀ i j, i ≤ j → obs i = true → obs j = true) →
      (initialise obs = true ↔ ∃ i, i ≤ initReturnIndex obs ∧ obs i = true)) := by
  have hle : initSleeps obs ≤ 10 := initExitIndex_le obs 11 0 (by norm_num)
  refine ⟨hle, ?_, rfl, fun k hk ht hf => ?_, fun hmono => ⟨fun h => ?_, fun h => ?_⟩⟩
  · calc initSleeps obs * initPollDelayMs ≤ 10 * initPollDelayMs :=
      Nat.mul_le_mul_right _ hle
    _ = 500 := rfl
  · have he : initExitIndex obs 11 0 = k :=
      initExitIndex_first_true obs 11 0 k (Nat.zero_le k) hk ht
        (fun j _ hj2 => hf j hj2) (by omega)
    refine ⟨he, ?_⟩
    rw [initReturnIndex]
    simp only [he, if_pos hk]
  · exact ⟨initReturnIndex obs, le_rfl, h⟩
  · obtain ⟨i, hi, hoi⟩ := h
    exact hmono i (initReturnIndex obs) hi hoi

/-- Witness for C9 at a concrete observation stream: the worker
publishes its first measurement between the second and third poll
(`ready()` is false on calls 0 and 1 and true from call 2 on):
`initialise` sleeps twice, stops at loop counter 2, re-reads `ready()`
as call 3 and returns true. -/
theorem c9_initialise_polls_witness :
    initSleeps (fun i => decide (2 ≤ i)) = 2 ∧
    initReturnIndex (fun i => decide (2 ≤ i)) = 3 ∧
    initialise (fun i => decide (2 ≤ i)) = true := by
  have h := c9_initialise_polls (fun i => decide (2 ≤ i))
  have hstop := h.2.2.2.1 2 (by norm_num) (by norm_num)
    (fun j hj => by
      interval_cases j <;> simp)
  refine ⟨hstop.1, hstop.2, ?_⟩
  rw [h.2.2.1, hstop.2]
  simp

/-- Claim C10: when both the first measurement and the retry fail
(`measureRange` yields 0.0 twice, e.g. because no rising edge was
seen), the first worker iteration still classifies 0.0 as an outlier,
takes its single retry, commits 0.0 through the filter and increments
the counter — so `ready()` becomes true and `getRange()` returns
exactly 0.0 even though no echo was ever received. -/
theorem c10_double_timeout_commits_zero :
    measureRange ⟨false, 0, false, 0⟩ = 0 ∧
    codeOutlier initialState (measureRange ⟨false, 0, false, 0⟩) = true ∧
    measurementsTaken initialState (measureRange ⟨false, 0, false, 0⟩) = 2 ∧
    ready (workerStep initialState (measureRange ⟨false, 0, false, 0⟩)
      (measureRange ⟨false, 0, false, 0⟩)) = true ∧
    getRange (workerStep initialState (measureRange ⟨false, 0, false, 0⟩)
      (measureRange ⟨false, 0, false, 0⟩)) = 0 ∧
    getCount (workerStep initialState (measureRange ⟨false, 0, false, 0⟩)
      (measureRange ⟨false, 0, false, 0⟩)) = 1 := by
  have hm : measureRange ⟨false, 0, false, 0⟩ = 0 := by
    norm_num [measureRange]
  have ho : codeOutlier initialState 0 = true := by
    norm_num [codeOutlier, initialState]
  refine ⟨hm, ?_, ?_, ?_, ?_, ?_⟩
  · rw [hm]
    exact ho
  · rw [hm]
    simp [measurementsTaken, ho]
  · norm_num [ready, workerStep, initialState, uintMod]
  · rw [hm]
    norm_num [getRange, workerStep, initialState, commitReading, committedValue, ho]
  · norm_num [getCount, workerStep, initialState, uintMod]

end Espiresso
